import Mathlib

/-!
# Verification of the flighttracker core against its specification

Shallow embedding of the Go sources of `GrowlyX/flighttracker`:

* `internal/provider` — flight data model, sliding-window rate limiter
  (`ratelimit.go`) and the waterfall aggregator (`multi.go`);
* `internal/tracker` — the tracking state machine (`tracker.go`);
* `internal/ui` — the dead-reckoning position estimator and trail
  maintenance of the display loop (`game.go`).

Go `float64` values are modelled as real numbers, Go `int` as `Int`
(`Nat` for the always-nonnegative error counter), timestamps as
integers (milliseconds) for the rate limiter and tracker state, and as
real-valued seconds for the display estimator.  Network calls are
modelled by their outcomes: a provider call is an `Except` value giving
either the error or the decoded payload.
-/

namespace FlightTracker

open Classical

/-! ## Data model (`internal/provider/types.go`) -/

/-- Model of `provider.FlightDirection`: `Arriving` iota 0, `Departing` iota 1. -/
inductive FlightDirection
  | arriving
  | departing
deriving DecidableEq, Repr

/-- Model of `provider.AirportRef`. -/
structure AirportRef where
  code : String
  codeICAO : String
  codeIATA : String
  name : String
  city : String
deriving DecidableEq, Repr

/-- Model of `provider.Flight`. -/
structure Flight where
  ident : String
  identICAO : String
  identIATA : String
  flightID : String
  operator : String
  operatorICAO : String
  operatorIATA : String
  flightNumber : String
  origin : Option AirportRef
  destination : Option AirportRef
  status : String
  aircraftType : String
  isAirborne : Bool
deriving DecidableEq, Repr

/-- Model of `provider.FlightPosition`.  `Altitude` is in units of 100 ft,
`Groundspeed` in knots, `Heading` is an optional pointer in the Go
source, latitude/longitude are `float64` degrees. -/
structure FlightPosition where
  altitude : Int
  altitudeChange : String
  groundspeed : Int
  heading : Option Int
  latitude : ℝ
  longitude : ℝ
  timestamp : Int

/-! ## Sliding-window rate limiter (`internal/provider/ratelimit.go`) -/

/-- Model of `provider.RateLimit`: a window duration, a maximum request count and
the (chronologically appended) timestamps of recent requests.  The Go
mutex only serialises access and has no sequential semantics. -/
structure RateLimit where
  window : Int
  maxReqs : Int
  requests : List Int
deriving DecidableEq, Repr

/-- Model of `RateLimit.prune`: drop the leading timestamps strictly before
`now - window` (Go `Time.Before(cutoff)` on a front-pruned queue). -/
def RateLimit.prune (r : RateLimit) (now : Int) : RateLimit :=
  { r with requests := r.requests.dropWhile (fun t => decide (t < now - r.window)) }

/-- Model of `RateLimit.Allow`: true iff, after pruning, fewer than `maxReqs`
timestamps remain. -/
def RateLimit.allow (r : RateLimit) (now : Int) : Bool :=
  decide (((r.prune now).requests.length : Int) < r.maxReqs)

/-- Model of `RateLimit.Record`: append "now" to the timestamp queue. -/
def RateLimit.record (r : RateLimit) (now : Int) : RateLimit :=
  { r with requests := r.requests ++ [now] }

/-- Observer used to state the `Allow` contract: how many recorded
timestamps are inside the trailing window `[now - window, now]`. -/
def countInWindow (r : RateLimit) (now : Int) : Nat :=
  (r.requests.filter (fun t => decide (now - r.window ≤ t))).length

/-! ## Waterfall aggregator (`internal/provider/multi.go`) -/

/-- Outcome of one `FlightProvider.GetFlightsNear` call: the Go
`([]Flight, error)` pair, where exactly one side is meaningful. -/
abbrev FlightsOutcome := Except String (List Flight)

/-- Result of `MultiProvider.GetFlightsNear`: either the first provider
(with its index) that succeeded with a nonempty list, or the
"all providers failed" error wrapping the last underlying error, or the
`(nil, nil)` outcome when every provider merely returned empty. -/
inductive GetFlightsNearResult
  | found (flights : List Flight) (idx : Nat)
  | allFailed (lastErr : String)
  | empty
deriving DecidableEq, Repr

/-- The loop of `MultiProvider.GetFlightsNear`: walk the provider
outcomes in order, remembering the index `i` and the last error. -/
def getFlightsNearAux : Nat → Option String → List FlightsOutcome → GetFlightsNearResult
  | _, lastErr, [] =>
    match lastErr with
    | none => .empty
    | some e => .allFailed e
  | i, lastErr, o :: rest =>
    match o with
    | .error e => getFlightsNearAux (i + 1) (some e) rest
    | .ok [] => getFlightsNearAux (i + 1) lastErr rest
    | .ok (f :: fs) => .found (f :: fs) i

/-- Model of `MultiProvider.GetFlightsNear` over the ordered provider
outcomes. -/
def getFlightsNear (os : List FlightsOutcome) : GetFlightsNearResult :=
  getFlightsNearAux 0 none os

/-- Model of `MultiProvider.GetFlightsNear` together with the `activeIdx` state
update: `m.activeIdx = i` exactly on a nonempty success. -/
def multiGetFlightsNear (activeIdx : Nat) (os : List FlightsOutcome) :
    GetFlightsNearResult × Nat :=
  match getFlightsNear os with
  | .found fs j => (.found fs j, j)
  | r => (r, activeIdx)

/-- A provider outcome that the `GetFlightsNear` walk skips: an error or
a success with zero results. -/
def skipsProvider : FlightsOutcome → Bool
  | .error _ => true
  | .ok [] => true
  | .ok (_ :: _) => false

/-- The last error among a list of outcomes, if any (the value held by the Go
loop variable `lastErr` at the end of the walk). -/
def lastErrorOf : List FlightsOutcome → Option String
  | [] => none
  | .error e :: rest => some ((lastErrorOf rest).getD e)
  | .ok _ :: rest => lastErrorOf rest

/-- Model of `lastErr` accumulator combination: a later error overrides an
earlier one. -/
def orElseOpt (a b : Option String) : Option String :=
  match a with
  | some x => some x
  | none => b

lemma getFlightsNearAux_found_iff (os : List FlightsOutcome) :
    ∀ (i : Nat) (le : Option String) (fs : List Flight) (j : Nat),
      getFlightsNearAux i le os = .found fs j ↔
        ∃ k, j = i + k ∧ os[k]? = some (Except.ok fs) ∧ fs ≠ [] ∧
          ∀ o ∈ os.take k, skipsProvider o = true := by
  induction os with
  | nil =>
    intro i le fs j
    cases le <;> simp [getFlightsNearAux]
  | cons o rest ih =>
    intro i le fs j
    cases o with
    | error e =>
      rw [show getFlightsNearAux i le (Except.error e :: rest) =
            getFlightsNearAux (i + 1) (some e) rest from rfl, ih]
      constructor
      · rintro ⟨k, rfl, hget, hne, hsk⟩
        refine ⟨k + 1, by omega, by simpa using hget, hne, ?_⟩
        intro x hx
        rw [List.take_succ_cons] at hx
        rcases List.mem_cons.mp hx with h | h
        · simp [h, skipsProvider]
        · exact hsk x h
      · rintro ⟨k, hj, hget, hne, hsk⟩
        cases k with
        | zero => simp at hget
        | succ k =>
          refine ⟨k, by omega, by simpa using hget, hne, ?_⟩
          intro x hx
          exact hsk x (by simpa [List.take_succ_cons] using Or.inr hx)
    | ok flights =>
      cases flights with
      | nil =>
        rw [show getFlightsNearAux i le (Except.ok [] :: rest) =
              getFlightsNearAux (i + 1) le rest from rfl, ih]
        constructor
        · rintro ⟨k, rfl, hget, hne, hsk⟩
          refine ⟨k + 1, by omega, by simpa using hget, hne, ?_⟩
          intro x hx
          rw [List.take_succ_cons] at hx
          rcases List.mem_cons.mp hx with h | h
          · simp [h, skipsProvider]
          · exact hsk x h
        · rintro ⟨k, hj, hget, hne, hsk⟩
          cases k with
          | zero => simp at hget; exact absurd hget hne
          | succ k =>
            refine ⟨k, by omega, by simpa using hget, hne, ?_⟩
            intro x hx
            exact hsk x (by simpa [List.take_succ_cons] using Or.inr hx)
      | cons f ftl =>
        rw [show getFlightsNearAux i le (Except.ok (f :: ftl) :: rest) =
              .found (f :: ftl) i from rfl]
        constructor
        · intro h
          rcases h with ⟨⟩
          exact ⟨0, by omega, by simp, by simp, by simp⟩
        · rintro ⟨k, hj, hget, hne, hsk⟩
          cases k with
          | zero =>
            simp at hget
            subst hj
            simp [hget]
          | succ k =>
            have := hsk (Except.ok (f :: ftl))
              (by simp [List.take_succ_cons])
            simp [skipsProvider] at this

lemma getFlightsNearAux_allFailed_iff (os : List FlightsOutcome) :
    ∀ (i : Nat) (le : Option String) (e : String),
      getFlightsNearAux i le os = .allFailed e ↔
        (∀ o ∈ os, skipsProvider o = true) ∧ orElseOpt (lastErrorOf os) le = some e := by
  induction os with
  | nil =>
    intro i le e
    cases le <;> simp [getFlightsNearAux, lastErrorOf, orElseOpt]
  | cons o rest ih =>
    intro i le e
    cases o with
    | error e2 =>
      rw [show getFlightsNearAux i le (Except.error e2 :: rest) =
            getFlightsNearAux (i + 1) (some e2) rest from rfl, ih]
      have hlast : orElseOpt (lastErrorOf (Except.error e2 :: rest)) le =
          orElseOpt (lastErrorOf rest) (some e2) := by
        cases h : lastErrorOf rest <;> simp [lastErrorOf, orElseOpt, h]
      rw [← hlast]
      simp [skipsProvider]
    | ok flights =>
      cases flights with
      | nil =>
        rw [show getFlightsNearAux i le (Except.ok [] :: rest) =
              getFlightsNearAux (i + 1) le rest from rfl, ih]
        simp [skipsProvider, lastErrorOf]
      | cons f ftl =>
        rw [show getFlightsNearAux i le (Except.ok (f :: ftl) :: rest) =
              .found (f :: ftl) i from rfl]
        constructor
        · intro h; exact absurd h (by simp)
        · rintro ⟨hall, -⟩
          have := hall (Except.ok (f :: ftl)) (by simp)
          simp [skipsProvider] at this

lemma getFlightsNearAux_empty_iff (os : List FlightsOutcome) :
    ∀ (i : Nat) (le : Option String),
      getFlightsNearAux i le os = .empty ↔
        (∀ o ∈ os, o = Except.ok ([] : List Flight)) ∧ le = none := by
  induction os with
  | nil =>
    intro i le
    cases le <;> simp [getFlightsNearAux]
  | cons o rest ih =>
    intro i le
    cases o with
    | error e2 =>
      rw [show getFlightsNearAux i le (Except.error e2 :: rest) =
            getFlightsNearAux (i + 1) (some e2) rest from rfl, ih]
      simp
    | ok flights =>
      cases flights with
      | nil =>
        rw [show getFlightsNearAux i le (Except.ok [] :: rest) =
              getFlightsNearAux (i + 1) le rest from rfl, ih]
        simp
      | cons f ftl =>
        rw [show getFlightsNearAux i le (Except.ok (f :: ftl) :: rest) =
              .found (f :: ftl) i from rfl]
        simp

/-- A sample airline flight used to instantiate theorems on concrete
inputs. -/
def testFlight : Flight :=
  ⟨"UAL123", "UAL123", "UA123", "a1b2c3", "United Airlines", "UAL", "UA",
    "123", none, none, "en route", "B738", true⟩

/-- C1: `MultiProvider.GetFlightsNear` walks the ordered providers:
a provider that errors is skipped (its error remembered as last error),
a provider succeeding with zero results is skipped, and the first
provider succeeding with one or more results is returned together with
its index, which becomes `activeIdx`; if nothing was returned and some
provider errored the call fails wrapping the last error; if every
provider merely returned empty with no error, the call returns the
`(nil, nil)` outcome. -/
theorem c1_getFlightsNear_waterfall (os : List FlightsOutcome) :
    (∀ fs j, getFlightsNear os = .found fs j ↔
        os[j]? = some (Except.ok fs) ∧ fs ≠ [] ∧
          ∀ o ∈ os.take j, skipsProvider o = true)
  ∧ (∀ a fs j, getFlightsNear os = .found fs j →
        multiGetFlightsNear a os = (.found fs j, j))
  ∧ (∀ a e, getFlightsNear os = .allFailed e →
        multiGetFlightsNear a os = (.allFailed e, a))
  ∧ (∀ e, getFlightsNear os = .allFailed e ↔
        (∀ o ∈ os, skipsProvider o = true) ∧ lastErrorOf os = some e)
  ∧ (getFlightsNear os = .empty ↔
        ∀ o ∈ os, o = Except.ok ([] : List Flight)) := by
  refine ⟨?_, ?_, ?_, ?_, ?_⟩
  · intro fs j
    rw [getFlightsNear, getFlightsNearAux_found_iff]
    constructor
    · rintro ⟨k, hk, hget, hne, hsk⟩
      exact ⟨by rw [hk]; simpa using hget, hne, by rw [hk]; simpa using hsk⟩
    · rintro ⟨hget, hne, hsk⟩
      exact ⟨j, by omega, hget, hne, hsk⟩
  · intro a fs j h
    simp [multiGetFlightsNear, h]
  · intro a e h
    simp [multiGetFlightsNear, h]
  · intro e
    rw [getFlightsNear, getFlightsNearAux_allFailed_iff]
    have : orElseOpt (lastErrorOf os) none = lastErrorOf os := by
      cases lastErrorOf os <;> simp [orElseOpt]
    rw [this]
  · rw [getFlightsNear, getFlightsNearAux_empty_iff]
    simp

/-- C1 witness: three providers where the first errors, the second
returns zero flights and the third returns one flight: the result of the third
is returned and its index 2 becomes active. -/
theorem c1_getFlightsNear_waterfall_witness :
    getFlightsNear [Except.error "net down", Except.ok [], Except.ok [testFlight]] =
      .found [testFlight] 2
    ∧ multiGetFlightsNear 0
        [Except.error "net down", Except.ok [], Except.ok [testFlight]] =
      (.found [testFlight] 2, 2) := by
  have h := c1_getFlightsNear_waterfall
    [Except.error "net down", Except.ok [], Except.ok [testFlight]]
  have hfound : getFlightsNear
      [Except.error "net down", Except.ok [], Except.ok [testFlight]] =
        .found [testFlight] 2 :=
    (h.1 [testFlight] 2).mpr (by refine ⟨by rfl, by simp, ?_⟩; decide)
  exact ⟨hfound, h.2.1 0 [testFlight] 2 hfound⟩

/-- C2 counterexample.  The claim says a call made while every per-provider
rate limiter is exhausted fails with `AllProvidersRateLimited` and invokes
no provider.  In the source, `MultiProvider.GetFlightsNear` never
consults any `RateLimit` (no `Allow`/`CapacityPct` call exists in
`multi.go`): with a limiter constructed with `maxRequests = 0` — whose
`Allow` is always false — the walk still invokes the first provider and
returns its nonempty result. -/
theorem c2_rate_gating_counterexample :
    RateLimit.allow ⟨1000, 0, []⟩ 0 = false
    ∧ RateLimit.allow ⟨1000, 0, []⟩ 123456 = false
    ∧ multiGetFlightsNear 0 [Except.ok [testFlight]] = (.found [testFlight] 0, 0) := by
  exact ⟨by decide, by decide, rfl⟩

/-- C2 amended.  `MultiProvider.GetFlightsNear` ignores rate-limiter
state entirely: providers are consulted in their configured order
regardless of remaining capacity, so even when every registered limiter answers
`Allow()` false the first provider is still invoked, and a nonempty
success from it is returned (no `AllProvidersRateLimited` outcome
exists in this code path). -/
theorem c2_no_rate_gating (rls : List RateLimit) (t : Int)
    (_hexhausted : ∀ r ∈ rls, r.allow t = false)
    (f : Flight) (fs : List Flight) (rest : List FlightsOutcome) :
    getFlightsNear (Except.ok (f :: fs) :: rest) = .found (f :: fs) 0 := rfl

/-- C2 amended witness: one registered limiter, exhausted
(`maxRequests = 0`), yet the single provider is invoked and its flight
returned. -/
theorem c2_no_rate_gating_witness :
    getFlightsNear [Except.ok [testFlight]] = .found [testFlight] 0 :=
  c2_no_rate_gating [⟨1000, 0, []⟩] 0 (by decide) testFlight [] []

/-! ## `MultiProvider.GetFlightPosition` (`internal/provider/multi.go`) -/

/-- Outcome of one `FlightProvider.GetFlightPosition` call: the Go
`(*FlightPosition, error)` pair — an error, a position, or `(nil, nil)`. -/
abbrev PositionOutcome := Except String (Option FlightPosition)

/-- Result of `MultiProvider.GetFlightPosition`: the position found
(with the index of the provider that supplied it), the "all providers
failed" error wrapping the last error, or the "no position available"
error when no provider errored but none had a position. -/
inductive GetPositionResult
  | found (pos : FlightPosition) (idx : Nat)
  | allFailed (lastErr : String)
  | noPosition

/-- The fallback loop of `MultiProvider.GetFlightPosition`: walk all
providers in order, skipping index `active`, remembering the last
error. -/
def getPositionFallbackAux (active : Nat) : Nat → Option String → List PositionOutcome →
    GetPositionResult
  | _, lastErr, [] =>
    match lastErr with
    | some e => .allFailed e
    | none => .noPosition
  | i, lastErr, o :: rest =>
    if i = active then getPositionFallbackAux active (i + 1) lastErr rest
    else
      match o with
      | .error e => getPositionFallbackAux active (i + 1) (some e) rest
      | .ok none => getPositionFallbackAux active (i + 1) lastErr rest
      | .ok (some p) => .found p i

/-- Model of `MultiProvider.GetFlightPosition`: try the active provider first
(when its index is in range); on `err == nil && pos != nil` return its
position at once, otherwise fall back to the others in order. -/
def getFlightPosition (active : Nat) (os : List PositionOutcome) : GetPositionResult :=
  if h : active < os.length then
    match os.get ⟨active, h⟩ with
    | .ok (some p) => .found p active
    | _ => getPositionFallbackAux active 0 none os
  else getPositionFallbackAux active 0 none os

/-- Model of `MultiProvider.GetFlightPosition` together with the `activeIdx`
update: the succeeding provider becomes active. -/
def multiGetFlightPosition (active : Nat) (os : List PositionOutcome) :
    GetPositionResult × Nat :=
  match getFlightPosition active os with
  | .found p j => (.found p j, j)
  | r => (r, active)

/-- A position outcome the fallback walk passes over: an error or a
`(nil, nil)` reply. -/
def posSkips : PositionOutcome → Bool
  | .error _ => true
  | .ok none => true
  | .ok (some _) => false

/-- Observer: the result is one of the two error outcomes. -/
def posFailure : GetPositionResult → Bool
  | .found _ _ => false
  | .allFailed _ => true
  | .noPosition => true

lemma getPositionFallbackAux_found_iff (active : Nat) (os : List PositionOutcome) :
    ∀ (i : Nat) (le : Option String) (p : FlightPosition) (j : Nat),
      getPositionFallbackAux active i le os = .found p j ↔
        ∃ k, j = i + k ∧ j ≠ active ∧ os[k]? = some (Except.ok (some p)) ∧
          ∀ m, m < k → (i + m = active ∨
            ∀ o, os[m]? = some o → posSkips o = true) := by
  induction os with
  | nil =>
    intro i le p j
    cases le <;> simp [getPositionFallbackAux]
  | cons o rest ih =>
    intro i le p j
    by_cases hia : i = active
    · rw [show getPositionFallbackAux active i le (o :: rest) =
            getPositionFallbackAux active (i + 1) le rest from by
          simp [getPositionFallbackAux, hia], ih]
      constructor
      · rintro ⟨k, rfl, hne, hget, hsk⟩
        refine ⟨k + 1, by omega, by omega, by simpa using hget, ?_⟩
        intro m hm
        cases m with
        | zero => exact Or.inl (by omega)
        | succ m =>
          rcases hsk m (by omega) with h | h
          · exact Or.inl (by omega)
          · exact Or.inr (by intro o ho; exact h o (by simpa using ho))
      · rintro ⟨k, hj, hne, hget, hsk⟩
        cases k with
        | zero =>
          exfalso; omega
        | succ k =>
          refine ⟨k, by omega, by omega, by simpa using hget, ?_⟩
          intro m hm
          rcases hsk (m + 1) (by omega) with h | h
          · exact Or.inl (by omega)
          · exact Or.inr (by intro o ho; exact h o (by simpa using ho))
    · cases o with
      | error e =>
        rw [show getPositionFallbackAux active i le (Except.error e :: rest) =
              getPositionFallbackAux active (i + 1) (some e) rest from by
            simp [getPositionFallbackAux, hia], ih]
        constructor
        · rintro ⟨k, rfl, hne, hget, hsk⟩
          refine ⟨k + 1, by omega, by omega, by simpa using hget, ?_⟩
          intro m hm
          cases m with
          | zero => exact Or.inr (by intro o ho; simp at ho; simp [← ho, posSkips])
          | succ m =>
            rcases hsk m (by omega) with h | h
            · exact Or.inl (by omega)
            · exact Or.inr (by intro o ho; exact h o (by simpa using ho))
        · rintro ⟨k, hj, hne, hget, hsk⟩
          cases k with
          | zero => simp at hget
          | succ k =>
            refine ⟨k, by omega, by omega, by simpa using hget, ?_⟩
            intro m hm
            rcases hsk (m + 1) (by omega) with h | h
            · exact Or.inl (by omega)
            · exact Or.inr (by intro o ho; exact h o (by simpa using ho))
      | ok q =>
        cases q with
        | none =>
          rw [show getPositionFallbackAux active i le (Except.ok none :: rest) =
                getPositionFallbackAux active (i + 1) le rest from by
              simp [getPositionFallbackAux, hia], ih]
          constructor
          · rintro ⟨k, rfl, hne, hget, hsk⟩
            refine ⟨k + 1, by omega, by omega, by simpa using hget, ?_⟩
            intro m hm
            cases m with
            | zero => exact Or.inr (by intro o ho; simp at ho; simp [← ho, posSkips])
            | succ m =>
              rcases hsk m (by omega) with h | h
              · exact Or.inl (by omega)
              · exact Or.inr (by intro o ho; exact h o (by simpa using ho))
          · rintro ⟨k, hj, hne, hget, hsk⟩
            cases k with
            | zero => simp at hget
            | succ k =>
              refine ⟨k, by omega, by omega, by simpa using hget, ?_⟩
              intro m hm
              rcases hsk (m + 1) (by omega) with h | h
              · exact Or.inl (by omega)
              · exact Or.inr (by intro o ho; exact h o (by simpa using ho))
        | some q0 =>
          rw [show getPositionFallbackAux active i le (Except.ok (some q0) :: rest) =
                .found q0 i from by simp [getPositionFallbackAux, hia]]
          constructor
          · intro h
            rcases h with ⟨⟩
            exact ⟨0, by omega, hia, by simp, by omega⟩
          · rintro ⟨k, hj, hne, hget, hsk⟩
            cases k with
            | zero =>
              simp at hget
              subst hj
              simp [hget]
            | succ k =>
              rcases hsk 0 (by omega) with h | h
              · exact absurd (by omega : i = active) hia
              · have := h (Except.ok (some q0)) (by simp)
                simp [posSkips] at this

lemma getPositionFallbackAux_failure_iff (active : Nat) (os : List PositionOutcome) :
    ∀ (i : Nat) (le : Option String),
      posFailure (getPositionFallbackAux active i le os) = true ↔
        ∀ m o, os[m]? = some o → (i + m = active ∨ posSkips o = true) := by
  induction os with
  | nil =>
    intro i le
    cases le <;> simp [getPositionFallbackAux, posFailure]
  | cons o rest ih =>
    intro i le
    by_cases hia : i = active
    · rw [show getPositionFallbackAux active i le (o :: rest) =
            getPositionFallbackAux active (i + 1) le rest from by
          simp [getPositionFallbackAux, hia], ih]
      constructor
      · intro h m o2 ho
        cases m with
        | zero => exact Or.inl (by omega)
        | succ m =>
          rcases h m o2 (by simpa using ho) with h2 | h2
          · exact Or.inl (by omega)
          · exact Or.inr h2
      · intro h m o2 ho
        rcases h (m + 1) o2 (by simpa using ho) with h2 | h2
        · exact Or.inl (by omega)
        · exact Or.inr h2
    · cases o with
      | error e =>
        rw [show getPositionFallbackAux active i le (Except.error e :: rest) =
              getPositionFallbackAux active (i + 1) (some e) rest from by
            simp [getPositionFallbackAux, hia], ih]
        constructor
        · intro h m o2 ho
          cases m with
          | zero => simp at ho; simp [← ho, posSkips]
          | succ m =>
            rcases h m o2 (by simpa using ho) with h2 | h2
            · exact Or.inl (by omega)
            · exact Or.inr h2
        · intro h m o2 ho
          rcases h (m + 1) o2 (by simpa using ho) with h2 | h2
          · exact Or.inl (by omega)
          · exact Or.inr h2
      | ok q =>
        cases q with
        | none =>
          rw [show getPositionFallbackAux active i le (Except.ok none :: rest) =
                getPositionFallbackAux active (i + 1) le rest from by
              simp [getPositionFallbackAux, hia], ih]
          constructor
          · intro h m o2 ho
            cases m with
            | zero => simp at ho; simp [← ho, posSkips]
            | succ m =>
              rcases h m o2 (by simpa using ho) with h2 | h2
              · exact Or.inl (by omega)
              · exact Or.inr h2
          · intro h m o2 ho
            rcases h (m + 1) o2 (by simpa using ho) with h2 | h2
            · exact Or.inl (by omega)
            · exact Or.inr h2
        | some q0 =>
          rw [show getPositionFallbackAux active i le (Except.ok (some q0) :: rest) =
                .found q0 i from by simp [getPositionFallbackAux, hia]]
          constructor
          · intro h; simp [posFailure] at h
          · intro h
            exfalso
            rcases h 0 (Except.ok (some q0)) (by simp) with h2 | h2
            · exact absurd (by omega : i = active) hia
            · simp [posSkips] at h2

lemma getElemq_of_get {α : Type} (os : List α) (i : Nat) (h : i < os.length)
    (o : α) (hos : os.get ⟨i, h⟩ = o) : os[i]? = some o := by
  rw [List.getElem?_eq_some_iff]
  exact ⟨h, hos⟩

lemma get_of_getElemq {α : Type} (os : List α) (i : Nat) (h : i < os.length)
    (o : α) (ho : os[i]? = some o) : os.get ⟨i, h⟩ = o := by
  rcases List.getElem?_eq_some_iff.mp ho with ⟨h2, ho2⟩
  exact ho2

/-- C3: `MultiProvider.GetFlightPosition` tries the active provider
first and returns its position immediately on success; any position
returned comes from the provider at the returned index, which becomes
the new active index; when the result is not that of the active provider, the
active provider was tried and failed (or was out of range) and every
earlier non-active provider had been tried and failed or had no
position; and an error is returned exactly when every provider either
failed or returned no position. -/
theorem c3_getFlightPosition_failover (active : Nat) (os : List PositionOutcome) :
    (∀ (h : active < os.length) (p : FlightPosition),
        os.get ⟨active, h⟩ = Except.ok (some p) →
        getFlightPosition active os = .found p active)
  ∧ (∀ p j, getFlightPosition active os = .found p j →
        os[j]? = some (Except.ok (some p))
        ∧ multiGetFlightPosition active os = (.found p j, j)
        ∧ (j ≠ active →
            (∀ o, os[active]? = some o → posSkips o = true)
            ∧ ∀ k, k < j → k ≠ active → ∀ o, os[k]? = some o → posSkips o = true))
  ∧ (posFailure (getFlightPosition active os) = true ↔
        ∀ o ∈ os, posSkips o = true) := by
  refine ⟨?_, ?_, ?_⟩
  · intro h p hp
    rw [getFlightPosition, dif_pos h, hp]
  · intro p j hf
    have hmulti : multiGetFlightPosition active os = (.found p j, j) := by
      simp [multiGetFlightPosition, hf]
    by_cases h : active < os.length
    · cases hos : os.get ⟨active, h⟩ with
      | ok q =>
        cases q with
        | some q0 =>
          rw [getFlightPosition, dif_pos h, hos] at hf
          rcases hf with ⟨⟩
          refine ⟨getElemq_of_get os active h _ hos, hmulti, ?_⟩
          intro hja; exact absurd rfl hja
        | none =>
          rw [getFlightPosition, dif_pos h, hos] at hf
          rcases (getPositionFallbackAux_found_iff active os 0 none p j).mp hf with
            ⟨k, hk, hja, hget, hsk⟩
          refine ⟨by rw [hk]; simpa using hget, hmulti, ?_⟩
          intro _
          constructor
          · intro o ho
            have := get_of_getElemq os active h o ho
            rw [hos] at this
            rw [← this]
            rfl
          · intro k2 hk2 hk2a o ho
            rcases hsk k2 (by omega) with h2 | h2
            · exact absurd (by omega : k2 = active) hk2a
            · exact h2 o ho
      | error e =>
        rw [getFlightPosition, dif_pos h, hos] at hf
        rcases (getPositionFallbackAux_found_iff active os 0 none p j).mp hf with
          ⟨k, hk, hja, hget, hsk⟩
        refine ⟨by rw [hk]; simpa using hget, hmulti, ?_⟩
        intro _
        constructor
        · intro o ho
          have := get_of_getElemq os active h o ho
          rw [hos] at this
          rw [← this]
          rfl
        · intro k2 hk2 hk2a o ho
          rcases hsk k2 (by omega) with h2 | h2
          · exact absurd (by omega : k2 = active) hk2a
          · exact h2 o ho
    · rw [getFlightPosition, dif_neg h] at hf
      rcases (getPositionFallbackAux_found_iff active os 0 none p j).mp hf with
        ⟨k, hk, hja, hget, hsk⟩
      refine ⟨by rw [hk]; simpa using hget, hmulti, ?_⟩
      intro _
      constructor
      · intro o ho
        have : active < os.length := by
          have := List.getElem?_eq_some_iff.mp ho
          exact this.1
        exact absurd this h
      · intro k2 hk2 hk2a o ho
        rcases hsk k2 (by omega) with h2 | h2
        · exact absurd (by omega : k2 = active) hk2a
        · exact h2 o ho
  · have main : posFailure (getPositionFallbackAux active 0 none os) = true ↔
        ∀ m o, os[m]? = some o → (m = active ∨ posSkips o = true) := by
      rw [getPositionFallbackAux_failure_iff]
      constructor
      · intro h2 m o ho
        rcases h2 m o ho with h3 | h3
        · exact Or.inl (by omega)
        · exact Or.inr h3
      · intro h2 m o ho
        rcases h2 m o ho with h3 | h3
        · exact Or.inl (by omega)
        · exact Or.inr h3
    by_cases h : active < os.length
    · cases hos : os.get ⟨active, h⟩ with
      | ok q =>
        cases q with
        | some q0 =>
          rw [getFlightPosition, dif_pos h, hos]
          simp only [posFailure]
          constructor
          · intro h2; exact absurd h2 (by simp)
          · intro h2
            exfalso
            have hm : (Except.ok (some q0) : PositionOutcome) ∈ os :=
              List.mem_iff_getElem?.mpr ⟨active, getElemq_of_get os active h _ hos⟩
            have := h2 _ hm
            simp [posSkips] at this
        | none =>
          rw [getFlightPosition, dif_pos h, hos, main]
          constructor
          · intro h2 o ho
            rcases List.mem_iff_getElem?.mp ho with ⟨m, hm⟩
            rcases h2 m o hm with h3 | h3
            · subst h3
              have := get_of_getElemq os m h o hm
              rw [hos] at this
              rw [← this]
              rfl
            · exact h3
          · intro h2 m o hm
            exact Or.inr (h2 o (List.mem_iff_getElem?.mpr ⟨m, hm⟩))
      | error e =>
        rw [getFlightPosition, dif_pos h, hos, main]
        constructor
        · intro h2 o ho
          rcases List.mem_iff_getElem?.mp ho with ⟨m, hm⟩
          rcases h2 m o hm with h3 | h3
          · subst h3
            have := get_of_getElemq os m h o hm
            rw [hos] at this
            rw [← this]
            rfl
          · exact h3
        · intro h2 m o hm
          exact Or.inr (h2 o (List.mem_iff_getElem?.mpr ⟨m, hm⟩))
    · rw [getFlightPosition, dif_neg h, main]
      constructor
      · intro h2 o ho
        rcases List.mem_iff_getElem?.mp ho with ⟨m, hm⟩
        rcases h2 m o hm with h3 | h3
        · exfalso
          have := (List.getElem?_eq_some_iff.mp hm).1
          omega
        · exact h3
      · intro h2 m o hm
        exact Or.inr (h2 o (List.mem_iff_getElem?.mpr ⟨m, hm⟩))

/-- A sample position used to instantiate theorems on concrete inputs. -/
noncomputable def testPos : FlightPosition :=
  ⟨80, "C", 450, some 90, 0, 0, 0⟩

/-- C3 witness: with active provider 2 holding a position, provider 2
is consulted first and its position returned, keeping index 2 active
even though providers 0 and 1 exist before it in the ordering. -/
theorem c3_getFlightPosition_failover_witness :
    getFlightPosition 2
      [Except.error "down", Except.ok none, Except.ok (some testPos)] =
      .found testPos 2 :=
  (c3_getFlightPosition_failover 2
    [Except.error "down", Except.ok none, Except.ok (some testPos)]).1
    (by norm_num) testPos rfl

/-! ## Rate limiter behaviour (claim C7) -/

lemma dropWhile_lt_eq_filter (c : Int) :
    ∀ l : List Int, l.Sorted (· ≤ ·) →
      l.dropWhile (fun t => decide (t < c)) = l.filter (fun t => decide (c ≤ t)) := by
  intro l
  induction l with
  | nil => intro _; rfl
  | cons a l ih =>
    intro hs
    rw [List.sorted_cons] at hs
    by_cases hac : a < c
    · rw [List.dropWhile_cons_of_pos (by simpa using hac),
        List.filter_cons_of_neg (by simpa using hac)]
      exact ih hs.2
    · rw [List.dropWhile_cons_of_neg (by simpa using hac),
        List.filter_cons_of_pos (by simpa using hac)]
      have : l.filter (fun t => decide (c ≤ t)) = l := by
        rw [List.filter_eq_self]
        intro b hb
        have := hs.1 b hb
        simp
        omega
      rw [this]

/-- The rate-limit scenario of the spec: `NewRateLimit(3, 1s)` (window
in milliseconds) after zero, one, two and three `Record`s. -/
def rlSteps : RateLimit × RateLimit × RateLimit × RateLimit :=
  let r0 : RateLimit := ⟨1000, 3, []⟩
  let r1 := r0.record 0
  let r2 := r1.record 10
  let r3 := r2.record 20
  (r0, r1, r2, r3)

/-- C7: For a limiter state whose timestamp queue is chronological
(as produced by `Record` at nondecreasing clock readings), `Allow`
returns true iff fewer than `maxRequests` recorded timestamps lie in
the trailing window at the instant of the call, with expired timestamps
pruned before counting; `Record` preserves chronological order; and in
the concrete `NewRateLimit(3, 1s)` scenario three quick
`Allow`/`Record` pairs answer true, true, true, then false, and once
the window has elapsed `Allow` is true again. -/
theorem c7_rate_limit_allow (r : RateLimit) (now : Int)
    (hsorted : r.requests.Sorted (· ≤ ·)) :
    (r.allow now = true ↔ countInWindow r now < r.maxReqs)
    ∧ ((∀ t ∈ r.requests, t ≤ now) → (r.record now).requests.Sorted (· ≤ ·))
    ∧ rlSteps.1.allow 0 = true
    ∧ rlSteps.2.1.allow 10 = true
    ∧ rlSteps.2.2.1.allow 20 = true
    ∧ rlSteps.2.2.2.allow 30 = false
    ∧ rlSteps.2.2.2.allow 1021 = true := by
  refine ⟨?_, ?_, by decide, by decide, by decide, by decide, by decide⟩
  · rw [RateLimit.allow, RateLimit.prune, countInWindow]
    simp only [decide_eq_true_eq]
    rw [dropWhile_lt_eq_filter (now - r.window) r.requests hsorted]
  · intro hle
    rw [RateLimit.record]
    have : ((r.requests ++ [now]).Pairwise (· ≤ ·)) := by
      rw [List.pairwise_append]
      refine ⟨hsorted, by simp, ?_⟩
      intro a ha b hb
      rw [List.mem_singleton] at hb
      subst hb
      exact hle a ha
    exact this

/-- C7 witness: the `Allow` characterisation applied to the concrete
limiter state with timestamps 0, 10, 20 at time 1021 (window elapsed):
the count in the window is 0, below the maximum, and `Allow` says true. -/
theorem c7_rate_limit_allow_witness :
    RateLimit.allow ⟨1000, 3, [0, 10, 20]⟩ 1021 = true
    ∧ countInWindow ⟨1000, 3, [0, 10, 20]⟩ 1021 < 3 := by
  have h := (c7_rate_limit_allow ⟨1000, 3, [0, 10, 20]⟩ 1021 (by decide)).1
  exact ⟨h.mpr (by decide), by decide⟩

/-! ## Tracking state machine (`internal/tracker/tracker.go`) -/

/-- Model of `tracker.State`: the published snapshot read by the UI. -/
structure TrackState where
  flight : Option Flight
  position : Option FlightPosition
  direction : FlightDirection
  error : String
  updatedAt : Int

/-- Model of `Tracker.setState`: replace the whole snapshot, stamping
`UpdatedAt = now`. -/
def setState (snap : TrackState) (now : Int) : TrackState :=
  { snap with updatedAt := now }

/-- Model of `Tracker.setError`: overwrite only the `Error` string and the
`UpdatedAt` timestamp of the current snapshot. -/
def setError (s : TrackState) (e : String) (now : Int) : TrackState :=
  { s with error := e, updatedAt := now }

/-- The snapshot published by the poll loop on a successful position
fetch: `State{Flight: flight, Position: pos, Direction: dir}` (the
`Error` field is the Go zero value). -/
def publishSample (flight : Flight) (pos : FlightPosition) (dir : FlightDirection)
    (now : Int) : TrackState :=
  setState ⟨some flight, some pos, dir, "", 0⟩ now

/-- SFO coordinates (`tracker.go` constants). -/
noncomputable def sfoLat : ℝ := 37.6213

/-- SFO longitude. -/
noncomputable def sfoLon : ℝ := -122.3790

/-- Semantics of Go `math.Atan2` on the quadrants this code reaches (both
arguments nonnegative); the remaining cases follow the same convention. -/
noncomputable def atan2 (y x : ℝ) : ℝ :=
  if 0 < x then Real.arctan (y / x)
  else if x < 0 ∧ 0 ≤ y then Real.arctan (y / x) + Real.pi
  else if x < 0 ∧ y < 0 then Real.arctan (y / x) - Real.pi
  else if x = 0 ∧ 0 < y then Real.pi / 2
  else if x = 0 ∧ y < 0 then -(Real.pi / 2)
  else 0

/-- Model of `tracker.haversineNM`: great-circle distance in nautical miles. -/
noncomputable def haversineNM (lat1 lon1 lat2 lon2 : ℝ) : ℝ :=
  let earthRadiusNM : ℝ := 3440.065
  let dLat := (lat2 - lat1) * Real.pi / 180
  let dLon := (lon2 - lon1) * Real.pi / 180
  let a := Real.sin (dLat / 2) * Real.sin (dLat / 2) +
    Real.cos (lat1 * Real.pi / 180) * Real.cos (lat2 * Real.pi / 180) *
      Real.sin (dLon / 2) * Real.sin (dLon / 2)
  let c := 2 * atan2 (Real.sqrt a) (Real.sqrt (1 - a))
  earthRadiusNM * c

/-- The distance-disqualification test of `pollUntilComplete`: both
coordinates nonzero and farther than `maxPollDistanceNM = 100` from
SFO. -/
noncomputable def disqualifyFar (pos : FlightPosition) : Prop :=
  pos.latitude ≠ 0 ∧ pos.longitude ≠ 0 ∧
    100 < haversineNM sfoLat sfoLon pos.latitude pos.longitude

/-- Result of one iteration of the `pollUntilComplete` loop body. -/
inductive PollStep
  | next (s : TrackState) (errCount : Nat)
  | finish (completed : Bool) (s : TrackState)

/-- One iteration of `Tracker.pollUntilComplete` for direction `dir` and
flight `flight`: `s` is the currently published state, `errCount` the
consecutive-error counter, `outcome` the `GetFlightPosition` result and
`now` the clock.  On error the counter is bumped, the error published,
and the flight abandoned (`finish false`, "lost") once the counter
reaches `maxErrors = 30`.  On success the counter resets; a position
beyond 100 nm of SFO finishes as completed without republishing; a
Departing flight completes above altitude 100 (hundreds of feet), an
Arriving flight at altitude ≤ 0, publishing the final sample; otherwise
the new sample is published and polling continues. -/
noncomputable def pollStep (dir : FlightDirection) (flight : Flight) (s : TrackState)
    (errCount : Nat) (outcome : Except String FlightPosition) (now : Int) : PollStep :=
  match outcome with
  | .error e =>
    if errCount + 1 ≥ 30 then .finish false (setError s e now)
    else .next (setError s e now) (errCount + 1)
  | .ok pos =>
    if disqualifyFar pos then .finish true s
    else if dir = .departing ∧ 100 < pos.altitude then
      .finish true (publishSample flight pos dir now)
    else if dir = .arriving ∧ pos.altitude ≤ 0 then
      .finish true (publishSample flight pos dir now)
    else .next (publishSample flight pos dir now) 0

/-- Result of running `pollUntilComplete` over a finite stream of
fetch outcomes: completion, a lost flight, or the stream ran out while
the Go loop would still be polling. -/
inductive PollResult
  | completed (s : TrackState)
  | lost (s : TrackState)
  | polling (s : TrackState) (errCount : Nat)

/-- Model of `Tracker.pollUntilComplete` over a finite stream of timed fetch
outcomes. -/
noncomputable def pollLoop (dir : FlightDirection) (flight : Flight) :
    TrackState → Nat → List (Except String FlightPosition × Int) → PollResult
  | s, cnt, [] => .polling s cnt
  | s, cnt, (o, now) :: rest =>
    match pollStep dir flight s cnt o now with
    | .next s2 c2 => pollLoop dir flight s2 c2 rest
    | .finish true s2 => .completed s2
    | .finish false s2 => .lost s2

/-- The snapshot published on entering tracking:
`State{Flight: flight, Direction: t.direction}` (no position yet). -/
def initialState (flight : Flight) (dir : FlightDirection) (now : Int) : TrackState :=
  setState ⟨some flight, none, dir, "", 0⟩ now

/-- One discovered flight together with the poll outcomes its tracking
session will observe. -/
structure TrackAttempt where
  flight : Flight
  startTime : Int
  polls : List (Except String FlightPosition × Int)

/-- Model of `Tracker.trackNextFlight` for a fixed direction, over the successive
discovery results: each found flight is published and polled until
completion; a lost flight (error budget exhausted) loops back to
discovery with the same direction; `none` models a session still in
progress when the modelled observations run out. -/
noncomputable def trackNextFlight (dir : FlightDirection) :
    List TrackAttempt → Option TrackState
  | [] => none
  | a :: rest =>
    match pollLoop dir a.flight (initialState a.flight dir a.startTime) 0 a.polls with
    | .completed s => some s
    | .lost _ => trackNextFlight dir rest
    | .polling _ _ => none

/-- The direction of the `n`-th completed tracking session under
`Tracker.Run` (`runCycle` tracks a Departing flight, then an Arriving
one, forever), so directions alternate starting from Departing. -/
def runDirections (n : Nat) : FlightDirection :=
  if n % 2 = 0 then .departing else .arriving

/-- The `isAirline` helper of `tracker.go`. -/
def isAirline (f : Flight) : Bool :=
  decide (f.operatorIATA ≠ "") || decide (f.operatorICAO ≠ "") ||
    decide (f.operator ≠ "")

/-- Candidate filter of `findEnRouteFlight`: airborne, nonempty ident,
and passing the optional `AirlineFilter` callback. -/
def isCandidate (filt : Option (String → String → Bool)) (f : Flight) : Bool :=
  f.isAirborne && decide (f.ident ≠ "") &&
    (match filt with
     | some af => af f.operatorIATA f.operator
     | none => true)

/-- One round of `Tracker.findEnRouteFlight` on the outcome of
`GetFlightsNear`: a fetch error is published through `setError` and no
flight is returned; otherwise candidates are filtered and ordered with
airline flights first (every candidate has distance 0 at discovery
time, so the `sort.Slice` comparison reduces to the airline flag; the
order among equal keys is not specified by the unstable Go sort and is
modelled as a stable partition) and the best candidate, if any, is
returned without touching the published state. -/
noncomputable def findEnRouteFlightStep (filt : Option (String → String → Bool))
    (s : TrackState) (fetch : FlightsOutcome) (now : Int) :
    TrackState × Option Flight :=
  match fetch with
  | .error e => (setError s e now, none)
  | .ok flights =>
    let cands := flights.filter (isCandidate filt)
    let ordered := cands.filter isAirline ++ cands.filter (fun f => !isAirline f)
    (s, ordered.head?)

/-- A sample polled position at altitude `a` (hundreds of feet), with
the zero coordinates a provider reports before a first fix, so the
distance check is skipped. -/
noncomputable def posAlt (a : Int) : FlightPosition :=
  ⟨a, "-", 450, some 90, 0, 0, 0⟩

/-- C4: Under the distance guard not firing, one poll of a Departing
flight finishes as completed, publishing the final sample, exactly when
the polled altitude exceeds 100 (units of 100 ft, i.e. 10,000 ft); an
Arriving flight completes exactly when the altitude is at or below
zero; and the directions of successive completed sessions under
`Run`/`runCycle` alternate. -/
theorem c4_completion_thresholds (f : Flight) (s : TrackState) (cnt : Nat)
    (pos : FlightPosition) (now : Int) (hfar : ¬ disqualifyFar pos) :
    (pollStep .departing f s cnt (.ok pos) now =
        .finish true (publishSample f pos .departing now) ↔ 100 < pos.altitude)
    ∧ (pollStep .arriving f s cnt (.ok pos) now =
        .finish true (publishSample f pos .arriving now) ↔ pos.altitude ≤ 0)
    ∧ ∀ n, runDirections (n + 1) ≠ runDirections n := by
  refine ⟨?_, ?_, ?_⟩
  · rw [show pollStep .departing f s cnt (.ok pos) now =
        (if disqualifyFar pos then .finish true s
         else if FlightDirection.departing = .departing ∧ 100 < pos.altitude then
           .finish true (publishSample f pos .departing now)
         else if FlightDirection.departing = .arriving ∧ pos.altitude ≤ 0 then
           .finish true (publishSample f pos .departing now)
         else .next (publishSample f pos .departing now) 0) from rfl,
      if_neg hfar]
    by_cases halt : 100 < pos.altitude
    · rw [if_pos ⟨rfl, halt⟩]
      simp [halt]
    · rw [if_neg (by simp [halt]), if_neg (by simp)]
      simp [halt]
  · rw [show pollStep .arriving f s cnt (.ok pos) now =
        (if disqualifyFar pos then .finish true s
         else if FlightDirection.arriving = .departing ∧ 100 < pos.altitude then
           .finish true (publishSample f pos .arriving now)
         else if FlightDirection.arriving = .arriving ∧ pos.altitude ≤ 0 then
           .finish true (publishSample f pos .arriving now)
         else .next (publishSample f pos .arriving now) 0) from rfl,
      if_neg hfar, if_neg (by simp)]
    by_cases halt : pos.altitude ≤ 0
    · rw [if_pos ⟨rfl, halt⟩]
      simp [halt]
    · rw [if_neg (by simp [halt])]
      simp [halt]
  · intro n
    have h2 : (n + 1) % 2 = 1 ∨ (n + 1) % 2 = 0 := by omega
    rcases h2 with h2 | h2
    · have h3 : n % 2 = 0 := by omega
      simp [runDirections, h2, h3]
    · have h3 : n % 2 = 1 := by omega
      simp [runDirections, h2, h3]

/-- C4 witness: a Departing poll at altitude 120 (the third poll of the 50/80/120
scenario in the spec) completes and publishes the final
sample; an Arriving poll at altitude 0 does likewise. -/
theorem c4_completion_thresholds_witness :
    pollStep .departing testFlight (initialState testFlight .departing 0) 0
        (Except.ok (posAlt 120)) 9 =
      .finish true (publishSample testFlight (posAlt 120) .departing 9)
    ∧ pollStep .arriving testFlight (initialState testFlight .arriving 0) 0
        (Except.ok (posAlt 0)) 9 =
      .finish true (publishSample testFlight (posAlt 0) .arriving 9) := by
  constructor
  · exact ((c4_completion_thresholds testFlight (initialState testFlight .departing 0)
      0 (posAlt 120) 9 (fun h => h.1 rfl)).1).mpr (by norm_num [posAlt])
  · exact ((c4_completion_thresholds testFlight (initialState testFlight .arriving 0)
      0 (posAlt 0) 9 (fun h => h.1 rfl)).2.1).mpr (by norm_num [posAlt])

lemma pollLoop_const_error (dir : FlightDirection) (f : Flight) (e : String) (t : Int) :
    ∀ (k : Nat) (s : TrackState) (cnt : Nat), 1 ≤ k → cnt + k = 30 →
      pollLoop dir f s cnt (List.replicate k (Except.error e, t)) =
        .lost (setError s e t) := by
  intro k
  induction k with
  | zero => intro s cnt h1 _; omega
  | succ k ih =>
    intro s cnt _ h2
    rw [List.replicate_succ]
    rw [show pollLoop dir f s cnt ((Except.error e, t) :: List.replicate k (Except.error e, t)) =
        (match pollStep dir f s cnt (.error e) t with
         | .next s2 c2 => pollLoop dir f s2 c2 (List.replicate k (Except.error e, t))
         | .finish true s2 => .completed s2
         | .finish false s2 => .lost s2) from rfl]
    cases k with
    | zero =>
      rw [show pollStep dir f s cnt (.error e) t =
          (if cnt + 1 ≥ 30 then .finish false (setError s e t)
           else .next (setError s e t) (cnt + 1)) from rfl,
        if_pos (by omega)]
    | succ k =>
      rw [show pollStep dir f s cnt (.error e) t =
          (if cnt + 1 ≥ 30 then .finish false (setError s e t)
           else .next (setError s e t) (cnt + 1)) from rfl,
        if_neg (by omega)]
      have := ih (setError s e t) (cnt + 1) (by omega) (by omega)
      rw [show setError (setError s e t) e t = setError s e t from rfl] at this
      exact this

/-- C5 counterexample.  The claim tolerates up to 30 consecutive
position-fetch errors, aborting only when the ceiling is exceeded; but
`pollUntilComplete` checks `consecutiveErrors >= maxErrors` after
incrementing, so a run of exactly 30 consecutive errors already aborts
the flight as lost. -/
theorem c5_error_budget_counterexample :
    pollLoop .departing testFlight (initialState testFlight .departing 0) 0
      (List.replicate 30 (Except.error "request failed", 1)) =
      .lost (setError (initialState testFlight .departing 0) "request failed" 1) :=
  pollLoop_const_error .departing testFlight "request failed" 1 30
    (initialState testFlight .departing 0) 0 (by norm_num) (by norm_num)

/-- C5 amended.  During position polling, up to 29 consecutive
position-fetch errors are tolerated — each error re-published into the
`Error` field of the state through `setError` — and the 30th consecutive
error (counter reaching the ceiling of 30) aborts tracking as lost, not
completed; a successful (non-terminal) poll resets the consecutive
error count to zero; and a lost flight loops back to discovery with the
same direction parameter. -/
theorem c5_error_budget (dir : FlightDirection) (f : Flight) (s : TrackState)
    (cnt : Nat) (e : String) (now : Int) :
    (cnt + 1 < 30 →
        pollStep dir f s cnt (.error e) now = .next (setError s e now) (cnt + 1))
  ∧ (30 ≤ cnt + 1 →
        pollStep dir f s cnt (.error e) now = .finish false (setError s e now))
  ∧ (∀ pos, ¬ disqualifyFar pos →
        ¬ (dir = .departing ∧ 100 < pos.altitude) →
        ¬ (dir = .arriving ∧ pos.altitude ≤ 0) →
        pollStep dir f s cnt (.ok pos) now = .next (publishSample f pos dir now) 0)
  ∧ (∀ (a : TrackAttempt) (rest : List TrackAttempt) (s2 : TrackState),
        pollLoop dir a.flight (initialState a.flight dir a.startTime) 0 a.polls =
          .lost s2 →
        trackNextFlight dir (a :: rest) = trackNextFlight dir rest) := by
  refine ⟨?_, ?_, ?_, ?_⟩
  · intro h
    rw [show pollStep dir f s cnt (.error e) now =
        (if cnt + 1 ≥ 30 then .finish false (setError s e now)
         else .next (setError s e now) (cnt + 1)) from rfl,
      if_neg (by omega)]
  · intro h
    rw [show pollStep dir f s cnt (.error e) now =
        (if cnt + 1 ≥ 30 then .finish false (setError s e now)
         else .next (setError s e now) (cnt + 1)) from rfl,
      if_pos (by omega)]
  · intro pos hfar hdep harr
    rw [show pollStep dir f s cnt (.ok pos) now =
        (if disqualifyFar pos then .finish true s
         else if dir = .departing ∧ 100 < pos.altitude then
           .finish true (publishSample f pos dir now)
         else if dir = .arriving ∧ pos.altitude ≤ 0 then
           .finish true (publishSample f pos dir now)
         else .next (publishSample f pos dir now) 0) from rfl,
      if_neg hfar, if_neg hdep, if_neg harr]
  · intro a rest s2 hlost
    rw [show trackNextFlight dir (a :: rest) =
        (match pollLoop dir a.flight (initialState a.flight dir a.startTime) 0 a.polls with
         | .completed s3 => some s3
         | .lost _ => trackNextFlight dir rest
         | .polling _ _ => none) from rfl,
      hlost]

/-- C5 amended witness: applied at the first error (count 1 of 30,
continues) and at the 30th consecutive error (aborts as lost). -/
theorem c5_error_budget_witness :
    pollStep .departing testFlight (initialState testFlight .departing 0) 0
        (Except.error "timeout") 2 =
      .next (setError (initialState testFlight .departing 0) "timeout" 2) 1
    ∧ pollStep .departing testFlight (initialState testFlight .departing 0) 29
        (Except.error "timeout") 2 =
      .finish false (setError (initialState testFlight .departing 0) "timeout" 2) := by
  constructor
  · exact (c5_error_budget .departing testFlight (initialState testFlight .departing 0)
      0 "timeout" 2).1 (by norm_num)
  · exact (c5_error_budget .departing testFlight (initialState testFlight .departing 0)
      29 "timeout" 2).2.1 (by norm_num)

/-- C10: The error-publishing update used by discovery and position
polling (`Tracker.setError`) changes only the `Error` string and the
`UpdatedAt` timestamp: `Flight`, `Position` and `Direction` are exactly
what they were, so `GetState` readers keep seeing the last flight and
position across transient failures; and both absorption sites — the
fetch-error branch of `findEnRouteFlight` and the error branch of
`pollUntilComplete` — publish through exactly this update. -/
theorem c10_set_error_frame (s : TrackState) (e : String) (now : Int) :
    (setError s e now).flight = s.flight
  ∧ (setError s e now).position = s.position
  ∧ (setError s e now).direction = s.direction
  ∧ (setError s e now).error = e
  ∧ (setError s e now).updatedAt = now
  ∧ (∀ dir f cnt, pollStep dir f s cnt (Except.error e) now =
      if cnt + 1 ≥ 30 then .finish false (setError s e now)
      else .next (setError s e now) (cnt + 1))
  ∧ (∀ filt, findEnRouteFlightStep filt s (Except.error e) now =
      (setError s e now, none)) :=
  ⟨rfl, rfl, rfl, rfl, rfl, fun _ _ _ => rfl, fun _ => rfl⟩

lemma atan2_one_zero : atan2 1 0 = Real.pi / 2 := by
  rw [atan2, if_neg (by norm_num), if_neg (by norm_num), if_neg (by norm_num),
    if_pos (by norm_num)]

lemma haversine_antipode_far :
    100 < haversineNM sfoLat sfoLon (-37.6213) 57.621 := by
  have hpi3 : (3 : ℝ) < Real.pi := Real.pi_gt_three
  have h1 : haversineNM sfoLat sfoLon (-37.6213) 57.621 = 3440.065 * Real.pi := by
    simp only [haversineNM, sfoLat, sfoLon]
    have e1 : ((-37.6213 : ℝ) - 37.6213) * Real.pi / 180 / 2 =
        -(37.6213 * Real.pi / 180) := by ring
    have e2 : ((57.621 : ℝ) - -122.3790) * Real.pi / 180 / 2 = Real.pi / 2 := by
      have h180 : ((57.621 : ℝ) - -122.3790) = 180 := by norm_num
      rw [h180]; ring
    have e3 : (-37.6213 : ℝ) * Real.pi / 180 = -(37.6213 * Real.pi / 180) := by ring
    rw [e1, e2, e3, Real.sin_neg, Real.cos_neg, Real.sin_pi_div_two]
    have ha : -Real.sin (37.6213 * Real.pi / 180) * -Real.sin (37.6213 * Real.pi / 180) +
        Real.cos (37.6213 * Real.pi / 180) * Real.cos (37.6213 * Real.pi / 180) * 1 * 1 =
          1 := by
      linear_combination Real.sin_sq_add_cos_sq (37.6213 * Real.pi / 180)
    rw [ha, show (1 : ℝ) - 1 = 0 from by norm_num, Real.sqrt_one, Real.sqrt_zero,
      atan2_one_zero]
    ring
  rw [h1]
  nlinarith

/-- C6 amended.  During polling, a fresh position with both
coordinates nonzero lying more than 100 nautical miles (great-circle
`haversineNM` from the SFO constants) from SFO finishes the flight as
completed — without republishing the state — so the loop moves on to
the next discovery. -/
theorem c6_distance_disqualification (dir : FlightDirection) (f : Flight)
    (s : TrackState) (cnt : Nat) (pos : FlightPosition) (now : Int)
    (hlat : pos.latitude ≠ 0) (hlon : pos.longitude ≠ 0)
    (hdist : 100 < haversineNM sfoLat sfoLon pos.latitude pos.longitude) :
    pollStep dir f s cnt (.ok pos) now = .finish true s
    ∧ ∀ rest, pollLoop dir f s cnt ((Except.ok pos, now) :: rest) = .completed s := by
  have hfar : disqualifyFar pos := ⟨hlat, hlon, hdist⟩
  have hstep : pollStep dir f s cnt (.ok pos) now = .finish true s := by
    rw [show pollStep dir f s cnt (.ok pos) now =
        (if disqualifyFar pos then .finish true s
         else if dir = .departing ∧ 100 < pos.altitude then
           .finish true (publishSample f pos dir now)
         else if dir = .arriving ∧ pos.altitude ≤ 0 then
           .finish true (publishSample f pos dir now)
         else .next (publishSample f pos dir now) 0) from rfl,
      if_pos hfar]
  refine ⟨hstep, ?_⟩
  intro rest
  rw [show pollLoop dir f s cnt ((Except.ok pos, now) :: rest) =
      (match pollStep dir f s cnt (.ok pos) now with
       | .next s2 c2 => pollLoop dir f s2 c2 rest
       | .finish true s2 => .completed s2
       | .finish false s2 => .lost s2) from rfl,
    hstep]

/-- A position more than 100 nm from SFO with nonzero coordinates
(roughly antipodal in longitude, mirrored in latitude). -/
noncomputable def posFarAway : FlightPosition :=
  ⟨50, "-", 450, some 90, -37.6213, 57.621, 0⟩

/-- C6 amended witness: the far position at (-37.6213, 57.621) is
more than 100 nm from SFO and one poll of it completes the flight. -/
theorem c6_distance_disqualification_witness :
    pollStep .departing testFlight (initialState testFlight .departing 0) 0
        (Except.ok posFarAway) 9 =
      .finish true (initialState testFlight .departing 0) :=
  (c6_distance_disqualification .departing testFlight
    (initialState testFlight .departing 0) 0 posFarAway 9
    (by rw [show posFarAway.latitude = -37.6213 from rfl]; norm_num)
    (by rw [show posFarAway.longitude = 57.621 from rfl]; norm_num)
    haversine_antipode_far).1

lemma haversine_zero_lat_far :
    100 < haversineNM sfoLat sfoLon 0 57.621 := by
  have hpi : (0 : ℝ) < Real.pi := Real.pi_pos
  have hpi3 : (3 : ℝ) < Real.pi := Real.pi_gt_three
  have hpi4 : Real.pi < 4 := Real.pi_lt_d2.trans (by norm_num)
  set φ2 : ℝ := 37.6213 * Real.pi / 360 with hφ2
  have h0 : 0 < φ2 := by rw [hφ2]; positivity
  have h4 : φ2 < Real.pi / 4 := by rw [hφ2]; nlinarith
  have hsin : 0 < Real.sin φ2 := Real.sin_pos_of_pos_of_lt_pi h0 (by nlinarith)
  have hcos : 0 < Real.cos φ2 :=
    Real.cos_pos_of_mem_Ioo ⟨by nlinarith, by nlinarith⟩
  have hcs : Real.sin φ2 ≤ Real.cos φ2 := by
    have hquart : 0 < Real.cos (φ2 + Real.pi / 4) :=
      Real.cos_pos_of_mem_Ioo ⟨by nlinarith, by nlinarith⟩
    have hexp := Real.cos_add φ2 (Real.pi / 4)
    rw [Real.cos_pi_div_four, Real.sin_pi_div_four] at hexp
    have hs2 : (0 : ℝ) < Real.sqrt 2 := Real.sqrt_pos.mpr (by norm_num)
    by_contra hneg
    push_neg at hneg
    nlinarith [hquart, hexp, hs2, hneg]
  have h1 : haversineNM sfoLat sfoLon 0 57.621 =
      3440.065 * (2 * Real.arctan (Real.cos φ2 / Real.sin φ2)) := by
    simp only [haversineNM, sfoLat, sfoLon]
    have e1 : ((0 : ℝ) - 37.6213) * Real.pi / 180 / 2 = -φ2 := by rw [hφ2]; ring
    have e2 : ((57.621 : ℝ) - -122.3790) * Real.pi / 180 / 2 = Real.pi / 2 := by
      have h180 : ((57.621 : ℝ) - -122.3790) = 180 := by norm_num
      rw [h180]; ring
    have e3 : (0 : ℝ) * Real.pi / 180 = 0 := by ring
    rw [e1, e2, e3, Real.sin_neg, Real.cos_zero, Real.sin_pi_div_two]
    have hφ : (37.6213 : ℝ) * Real.pi / 180 = 2 * φ2 := by rw [hφ2]; ring
    rw [hφ, Real.cos_two_mul]
    have ha : -Real.sin φ2 * -Real.sin φ2 +
        (2 * Real.cos φ2 ^ 2 - 1) * 1 * 1 * 1 = Real.cos φ2 ^ 2 := by
      linear_combination Real.sin_sq_add_cos_sq φ2
    rw [ha]
    have h1a : (1 : ℝ) - Real.cos φ2 ^ 2 = Real.sin φ2 ^ 2 := by
      linear_combination -Real.sin_sq_add_cos_sq φ2
    rw [h1a, Real.sqrt_sq hcos.le, Real.sqrt_sq hsin.le,
      show atan2 (Real.cos φ2) (Real.sin φ2) =
        Real.arctan (Real.cos φ2 / Real.sin φ2) from by rw [atan2, if_pos hsin]]
  have harct : Real.pi / 4 ≤ Real.arctan (Real.cos φ2 / Real.sin φ2) := by
    rw [← Real.arctan_one]
    exact Real.arctan_strictMono.monotone ((one_le_div hsin).mpr hcs)
  rw [h1]
  nlinarith [harct, hpi3]

/-- A polled position with latitude exactly 0 and longitude 57.621: far
beyond 100 nm of SFO, but with a zero coordinate. -/
noncomputable def posZeroLat : FlightPosition :=
  ⟨50, "-", 450, some 90, 0, 57.621, 0⟩

/-- C6 counterexample.  The claim says every polled position beyond
100 nm of SFO stops tracking as completed.  `pollUntilComplete` only
runs the distance check when both coordinates are nonzero, so the
position (latitude 0, longitude 57.621) — more than 100 nm away — does
not complete the flight: the poll publishes the sample and continues. -/
theorem c6_distance_disqualification_counterexample :
    100 < haversineNM sfoLat sfoLon posZeroLat.latitude posZeroLat.longitude
    ∧ pollStep .departing testFlight (initialState testFlight .departing 0) 0
        (Except.ok posZeroLat) 9 =
      .next (publishSample testFlight posZeroLat .departing 9) 0 := by
  constructor
  · rw [show posZeroLat.latitude = 0 from rfl,
      show posZeroLat.longitude = 57.621 from rfl]
    exact haversine_zero_lat_far
  · rw [show pollStep .departing testFlight (initialState testFlight .departing 0) 0
        (.ok posZeroLat) 9 =
        (if disqualifyFar posZeroLat then
           .finish true (initialState testFlight .departing 0)
         else if FlightDirection.departing = .departing ∧ 100 < posZeroLat.altitude then
           .finish true (publishSample testFlight posZeroLat .departing 9)
         else if FlightDirection.departing = .arriving ∧ posZeroLat.altitude ≤ 0 then
           .finish true (publishSample testFlight posZeroLat .departing 9)
         else .next (publishSample testFlight posZeroLat .departing 9) 0) from rfl,
      if_neg (fun h => h.1 rfl),
      if_neg (fun h => by
        have h2 := h.2
        rw [show posZeroLat.altitude = (50 : Int) from rfl] at h2
        omega),
      if_neg (fun h => FlightDirection.noConfusion h.1)]

/-! ## Dead-reckoning display estimator (`internal/ui/game.go`) -/

/-- The dead-reckoning and animation state of `ui.Game` (rendering
resources omitted).  Display time is real-valued seconds. -/
structure GameState where
  anchorLat : ℝ
  anchorLon : ℝ
  anchorTime : ℝ
  interpLat : ℝ
  interpLon : ℝ
  drSpeed : ℝ
  drHeading : ℝ
  hasAnchor : Bool
  lastFlightID : String
  animSpeed : ℝ
  animAltitude : ℝ
  animHeading : ℝ
  trailPoints : List (ℝ × ℝ)
  trailTick : Int

/-- The elapsed extrapolation time of `Game.deadReckon`: seconds since
the anchor, floored at 0 and capped at the 30-second horizon. -/
noncomputable def drDtRaw (anchorTime now : ℝ) : ℝ :=
  let dt0 := now - anchorTime
  let dt1 := if dt0 < 0 then 0 else dt0
  if dt1 > 30 then 30 else dt1

/-- The projected latitude of `Game.deadReckon`:
`anchor + dist·cos(heading)/R·(180/π)` with `dist = speed·1.852/3600·dt`. -/
noncomputable def drProjLat (g : GameState) (now : ℝ) : ℝ :=
  g.anchorLat + g.drSpeed * 1.852 / 3600 * drDtRaw g.anchorTime now *
    Real.cos (g.drHeading * Real.pi / 180) / 6371 * (180 / Real.pi)

/-- The projected longitude of `Game.deadReckon`:
`anchor + dist·sin(heading)/(R·cos(lat·π/180))·(180/π)`. -/
noncomputable def drProjLon (g : GameState) (now : ℝ) : ℝ :=
  g.anchorLon + g.drSpeed * 1.852 / 3600 * drDtRaw g.anchorTime now *
    Real.sin (g.drHeading * Real.pi / 180) /
    (6371 * Real.cos (g.anchorLat * Real.pi / 180)) * (180 / Real.pi)

/-- Model of `Game.deadReckon`: no-op without an anchor or positive speed;
otherwise blend the displayed position a fixed fraction 0.15 toward the
projection. -/
noncomputable def deadReckon (now : ℝ) (g : GameState) : GameState :=
  if g.hasAnchor = false ∨ g.drSpeed ≤ 0 then g
  else
    { g with interpLat := g.interpLat + (drProjLat g now - g.interpLat) * 0.15,
             interpLon := g.interpLon + (drProjLon g now - g.interpLon) * 0.15 }

/-- The trail cap of `Game.Update`: after appending, a trail longer than
2000 points is cut down to its most recent 1500. -/
def capTrail (tp : List (ℝ × ℝ)) : List (ℝ × ℝ) :=
  if tp.length > 2000 then tp.drop (tp.length - 1500) else tp

/-- The `flightChanged` test of `Game.Update`:
`state.Flight != nil && state.Flight.FlightID != g.lastFlightID`. -/
def flightChangedB (g : GameState) (st : TrackState) : Bool :=
  match st.flight with
  | some f => decide (f.flightID ≠ g.lastFlightID)
  | none => false

/-- The anchor block of `Game.Update`: on a flight change, snap the
anchor, display position and animated metrics and reset the trail; on a
mere position change, move the anchor; otherwise leave the state. -/
noncomputable def updateAnchor (g : GameState) (st : TrackState) (pos : FlightPosition)
    (now : ℝ) : GameState :=
  if flightChangedB g st then
    { g with anchorLat := pos.latitude, anchorLon := pos.longitude,
             interpLat := pos.latitude, interpLon := pos.longitude,
             anchorTime := now, hasAnchor := true,
             lastFlightID :=
               match st.flight with
               | some f => f.flightID
               | none => g.lastFlightID,
             trailPoints := [], trailTick := 0,
             animSpeed := (pos.groundspeed : ℝ) * 1.15078,
             animAltitude := (pos.altitude : ℝ) * 100,
             animHeading :=
               match pos.heading with
               | some h => (h : ℝ)
               | none => g.animHeading }
  else if pos.latitude ≠ g.anchorLat ∨ pos.longitude ≠ g.anchorLon then
    { g with anchorLat := pos.latitude, anchorLon := pos.longitude,
             anchorTime := now, hasAnchor := true }
  else g

/-- The velocity refresh of `Game.Update`: always take the latest
ground speed, and the latest heading when one is reported. -/
noncomputable def updateVelocity (g : GameState) (pos : FlightPosition) : GameState :=
  { g with drSpeed := (pos.groundspeed : ℝ),
           drHeading :=
             match pos.heading with
             | some h => (h : ℝ)
             | none => g.drHeading }

/-- The animated-metric blend of `Game.Update`: move each displayed
metric 0.08 of the way toward its target, wrapping the heading along
the shorter angular path. -/
noncomputable def updateAnim (g : GameState) (pos : FlightPosition) : GameState :=
  let targetSpeed : ℝ := (pos.groundspeed : ℝ) * 1.15078
  let targetAlt : ℝ := (pos.altitude : ℝ) * 100
  let targetHdg : ℝ := g.drHeading
  let d0 : ℝ := targetHdg - g.animHeading
  let d1 : ℝ := if d0 > 180 then d0 - 360 else if d0 < -180 then d0 + 360 else d0
  let h0 : ℝ := g.animHeading + d1 * 0.08
  let h1 : ℝ := if h0 < 0 then h0 + 360 else if h0 ≥ 360 then h0 - 360 else h0
  { g with animSpeed := g.animSpeed + (targetSpeed - g.animSpeed) * 0.08,
           animAltitude := g.animAltitude + (targetAlt - g.animAltitude) * 0.08,
           animHeading := h1 }

/-- The trail capture of `Game.Update`: bump the tick and, every third
tick with a nonzero displayed latitude, append the displayed position
and cap the trail. -/
noncomputable def captureTrail (g : GameState) : GameState :=
  let tick := g.trailTick + 1
  let g5 := { g with trailTick := tick }
  if tick % 3 = 0 ∧ g5.interpLat ≠ 0 then
    { g5 with trailPoints := capTrail (g5.trailPoints ++ [(g5.interpLat, g5.interpLon)]) }
  else g5

/-- Model of `Game.Update` (the logic on the tracker state; rendering omitted):
without a position, nothing changes; with one, the anchor block, the
velocity refresh, the animated-metric blend, dead reckoning and the
trail capture run in the order of the Go method body. -/
noncomputable def gameUpdate (g : GameState) (st : TrackState) (now : ℝ) : GameState :=
  match st.position with
  | none => g
  | some pos =>
    captureTrail (deadReckon now (updateAnim (updateVelocity (updateAnchor g st pos now) pos) pos))

lemma deadReckon_preserves (now : ℝ) (g : GameState) :
    (deadReckon now g).trailPoints = g.trailPoints
    ∧ (deadReckon now g).trailTick = g.trailTick
    ∧ (deadReckon now g).anchorLat = g.anchorLat
    ∧ (deadReckon now g).anchorLon = g.anchorLon := by
  rw [deadReckon]
  split_ifs <;> exact ⟨rfl, rfl, rfl, rfl⟩

lemma drDtRaw_self (now : ℝ) : drDtRaw now now = 0 := by
  rw [drDtRaw]
  norm_num

lemma deadReckon_at_anchor (g : GameState) (now : ℝ)
    (ht : g.anchorTime = now) (hlat : g.interpLat = g.anchorLat)
    (hlon : g.interpLon = g.anchorLon) :
    (deadReckon now g).interpLat = g.anchorLat
    ∧ (deadReckon now g).interpLon = g.anchorLon := by
  rw [deadReckon]
  split_ifs with h
  · exact ⟨hlat, hlon⟩
  · constructor
    · show g.interpLat + (drProjLat g now - g.interpLat) * 0.15 = g.anchorLat
      rw [drProjLat, ht, drDtRaw_self, hlat]
      ring
    · show g.interpLon + (drProjLon g now - g.interpLon) * 0.15 = g.anchorLon
      rw [drProjLon, ht, drDtRaw_self, hlon]
      ring

lemma updateAnchor_snap (g : GameState) (st : TrackState) (pos : FlightPosition)
    (now : ℝ) (hd : flightChangedB g st = true) :
    (updateAnchor g st pos now).anchorLat = pos.latitude
    ∧ (updateAnchor g st pos now).anchorLon = pos.longitude
    ∧ (updateAnchor g st pos now).interpLat = pos.latitude
    ∧ (updateAnchor g st pos now).interpLon = pos.longitude
    ∧ (updateAnchor g st pos now).anchorTime = now
    ∧ (updateAnchor g st pos now).trailPoints = []
    ∧ (updateAnchor g st pos now).trailTick = 0 := by
  rw [updateAnchor, if_pos hd]
  exact ⟨rfl, rfl, rfl, rfl, rfl, rfl, rfl⟩

lemma captureTrail_interp (g : GameState) :
    (captureTrail g).interpLat = g.interpLat
    ∧ (captureTrail g).interpLon = g.interpLon := by
  simp only [captureTrail]
  split_ifs <;> exact ⟨rfl, rfl⟩

/-- C8: With heading 90° (east): the dead-reckoned projection keeps
the anchor latitude; the projected longitude displaces the anchor
eastward by exactly `speed·1.852/3600·Δt` through the flat-earth
conversion, with the elapsed time `Δt` floored at 0, equal to the true
elapsed time below the horizon, and capped at 30 seconds; the displayed
position moves a fixed fraction 0.15 toward the projection and equals
the raw projection only when it already did; and on a flight-identity
change `Game.Update` snaps the displayed position to the new anchor. -/
theorem c8_dead_reckoning (g : GameState) (now : ℝ) (hhdg : g.drHeading = 90) :
    drProjLat g now = g.anchorLat
  ∧ drProjLon g now = g.anchorLon + g.drSpeed * 1.852 / 3600 * drDtRaw g.anchorTime now /
      (6371 * Real.cos (g.anchorLat * Real.pi / 180)) * (180 / Real.pi)
  ∧ (0 < g.drSpeed → 0 < drDtRaw g.anchorTime now →
      0 < Real.cos (g.anchorLat * Real.pi / 180) → g.anchorLon < drProjLon g now)
  ∧ (30 ≤ now - g.anchorTime → drDtRaw g.anchorTime now = 30)
  ∧ (0 ≤ now - g.anchorTime → now - g.anchorTime ≤ 30 →
      drDtRaw g.anchorTime now = now - g.anchorTime)
  ∧ (g.hasAnchor = true → 0 < g.drSpeed →
      (deadReckon now g).interpLon = g.interpLon + (drProjLon g now - g.interpLon) * 0.15
      ∧ ((deadReckon now g).interpLon = drProjLon g now ↔ g.interpLon = drProjLon g now))
  ∧ (∀ (st : TrackState) (pos : FlightPosition) (f : Flight),
      st.position = some pos → st.flight = some f → f.flightID ≠ g.lastFlightID →
      (gameUpdate g st now).interpLat = pos.latitude
      ∧ (gameUpdate g st now).interpLon = pos.longitude) := by
  have h90 : (90 : ℝ) * Real.pi / 180 = Real.pi / 2 := by ring
  refine ⟨?_, ?_, ?_, ?_, ?_, ?_, ?_⟩
  · rw [drProjLat, hhdg, h90, Real.cos_pi_div_two]
    ring
  · rw [drProjLon, hhdg, h90, Real.sin_pi_div_two]
    ring
  · intro hv hdt hc
    rw [drProjLon, hhdg, h90, Real.sin_pi_div_two]
    have hx : 0 < g.drSpeed * 1.852 / 3600 * drDtRaw g.anchorTime now * 1 /
        (6371 * Real.cos (g.anchorLat * Real.pi / 180)) * (180 / Real.pi) := by
      have hpi : (0 : ℝ) < Real.pi := Real.pi_pos
      positivity
    linarith
  · intro h
    rw [drDtRaw]
    have h1 : ¬ (now - g.anchorTime < 0) := by linarith
    rw [if_neg h1]
    split_ifs with h2
    · rfl
    · linarith
  · intro h0 h30
    rw [drDtRaw]
    rw [if_neg (show ¬ (now - g.anchorTime < 0) from by linarith)]
    rw [if_neg (show ¬ (now - g.anchorTime > 30) from by linarith)]
  · intro ha hv
    have hcond : ¬ (g.hasAnchor = false ∨ g.drSpeed ≤ 0) := by
      rintro (h | h)
      · rw [ha] at h; exact Bool.noConfusion h
      · linarith
    constructor
    · rw [deadReckon, if_neg hcond]
    · rw [deadReckon, if_neg hcond]
      show g.interpLon + (drProjLon g now - g.interpLon) * 0.15 = drProjLon g now ↔ _
      constructor
      · intro h; nlinarith [h]
      · intro h; rw [h]; ring
  · intro st pos f hpos hfl hne
    have hd : flightChangedB g st = true := by
      rw [flightChangedB, hfl]; exact decide_eq_true hne
    have hsnap := updateAnchor_snap g st pos now hd
    simp only [gameUpdate, hpos]
    have hYt : (updateAnim (updateVelocity (updateAnchor g st pos now) pos)
        pos).anchorTime = now := hsnap.2.2.2.2.1
    have hYlat : (updateAnim (updateVelocity (updateAnchor g st pos now) pos)
        pos).interpLat =
        (updateAnim (updateVelocity (updateAnchor g st pos now) pos) pos).anchorLat := by
      show (updateAnchor g st pos now).interpLat = (updateAnchor g st pos now).anchorLat
      rw [hsnap.2.2.1, hsnap.1]
    have hYlon : (updateAnim (updateVelocity (updateAnchor g st pos now) pos)
        pos).interpLon =
        (updateAnim (updateVelocity (updateAnchor g st pos now) pos) pos).anchorLon := by
      show (updateAnchor g st pos now).interpLon = (updateAnchor g st pos now).anchorLon
      rw [hsnap.2.2.2.1, hsnap.2.1]
    have hdr := deadReckon_at_anchor _ now hYt hYlat hYlon
    constructor
    · rw [(captureTrail_interp _).1, hdr.1]
      exact hsnap.1
    · rw [(captureTrail_interp _).2, hdr.2]
      exact hsnap.2.1

/-- A sample display state: anchored at the origin with heading east. -/
noncomputable def testGame : GameState :=
  { anchorLat := 0, anchorLon := 0, anchorTime := 0, interpLat := 0, interpLon := 5,
    drSpeed := 400, drHeading := 90, hasAnchor := true, lastFlightID := "",
    animSpeed := 0, animAltitude := 0, animHeading := 0, trailPoints := [],
    trailTick := 0 }

/-- C8 witness: east-heading projection from the test state at time
40 s keeps the anchor latitude, caps the elapsed time at 30 s, and the
display blends 0.15 of the way toward the projection. -/
theorem c8_dead_reckoning_witness :
    drProjLat testGame 40 = testGame.anchorLat
    ∧ drDtRaw testGame.anchorTime 40 = 30
    ∧ (deadReckon 40 testGame).interpLon =
        testGame.interpLon + (drProjLon testGame 40 - testGame.interpLon) * 0.15 := by
  have h := c8_dead_reckoning testGame 40 rfl
  exact ⟨h.1, h.2.2.2.1 (by norm_num [testGame]),
    (h.2.2.2.2.2.1 rfl (by norm_num [testGame])).1⟩

lemma capTrail_length_le (l : List (ℝ × ℝ)) (h : l.length ≤ 2001) :
    (capTrail l).length ≤ 2000 := by
  rw [capTrail]
  split_ifs with h2
  · rw [List.length_drop]
    omega
  · omega

/-- C9: The trail never exceeds 2000 points: `Game.Update` preserves
the bound; whenever an append pushes the trail past 2000 points it is
cut to exactly its most recent 1500 (a suffix of length 1500, the Go
slice `trailPoints[len-1500:]`); and a flight-identity change resets
the trail to empty. -/
theorem c9_trail_bound :
    (∀ (g : GameState) (st : TrackState) (now : ℝ),
        g.trailPoints.length ≤ 2000 → (gameUpdate g st now).trailPoints.length ≤ 2000)
  ∧ (∀ (tp : List (ℝ × ℝ)) (p : ℝ × ℝ), 2000 < (tp ++ [p]).length →
        capTrail (tp ++ [p]) = (tp ++ [p]).drop ((tp ++ [p]).length - 1500)
        ∧ (capTrail (tp ++ [p])).length = 1500
        ∧ capTrail (tp ++ [p]) <:+ (tp ++ [p]))
  ∧ (∀ (g : GameState) (st : TrackState) (now : ℝ) (pos : FlightPosition) (f : Flight),
        st.position = some pos → st.flight = some f → f.flightID ≠ g.lastFlightID →
        (gameUpdate g st now).trailPoints = []) := by
  have hct : ∀ g2 : GameState, g2.trailPoints.length ≤ 2000 →
      (captureTrail g2).trailPoints.length ≤ 2000 := by
    intro g2 h
    simp only [captureTrail]
    split_ifs with hc
    · show (capTrail (g2.trailPoints ++ [(g2.interpLat, g2.interpLon)])).length ≤ 2000
      apply capTrail_length_le
      rw [List.length_append]
      simp only [List.length_singleton]
      omega
    · exact h
  refine ⟨?_, ?_, ?_⟩
  · intro g st now hlen
    cases hpos : st.position with
    | none =>
      simp only [gameUpdate, hpos]
      exact hlen
    | some pos =>
      simp only [gameUpdate, hpos]
      apply hct
      rw [(deadReckon_preserves _ _).1]
      show (updateAnchor g st pos now).trailPoints.length ≤ 2000
      rw [updateAnchor]
      split_ifs
      · show ([] : List (ℝ × ℝ)).length ≤ 2000
        simp
      · exact hlen
      · exact hlen
  · intro tp p hlen
    refine ⟨by rw [capTrail, if_pos hlen], ?_, ?_⟩
    · rw [capTrail, if_pos hlen, List.length_drop]
      rw [List.length_append] at hlen ⊢
      simp only [List.length_singleton] at hlen ⊢
      omega
    · rw [capTrail, if_pos hlen]
      exact List.drop_suffix _ _
  · intro g st now pos f hpos hfl hne
    have hd : flightChangedB g st = true := by
      rw [flightChangedB, hfl]; exact decide_eq_true hne
    have hsnap := updateAnchor_snap g st pos now hd
    simp only [gameUpdate, hpos]
    have htick : (deadReckon now (updateAnim (updateVelocity
        (updateAnchor g st pos now) pos) pos)).trailTick = 0 := by
      rw [(deadReckon_preserves _ _).2.1]
      exact hsnap.2.2.2.2.2.2
    have htp : (deadReckon now (updateAnim (updateVelocity
        (updateAnchor g st pos now) pos) pos)).trailPoints = [] := by
      rw [(deadReckon_preserves _ _).1]
      exact hsnap.2.2.2.2.2.1
    simp only [captureTrail, htick]
    rw [if_neg (fun hc => by have h1 := hc.1; omega)]
    exact htp

/-- A sample published tracker snapshot holding a flight and position. -/
noncomputable def testTrackState : TrackState :=
  ⟨some testFlight, some (posAlt 80), .departing, "", 0⟩

/-- C9 witness: updating the test display state with a snapshot for
a new flight identity resets the trail to empty, and the length bound
holds after the update. -/
theorem c9_trail_bound_witness :
    (gameUpdate testGame testTrackState 1).trailPoints = []
    ∧ (gameUpdate testGame testTrackState 1).trailPoints.length ≤ 2000 := by
  refine ⟨c9_trail_bound.2.2 testGame testTrackState 1 (posAlt 80) testFlight rfl rfl
      (by simp [testFlight, testGame]),
    c9_trail_bound.1 testGame testTrackState 1 (by simp [testGame])⟩

end FlightTracker
